import Mathlib

/-!
# Verification of the fronty.js reconciliation engine

A shallow embedding of the core of `src/fronty.js-keyed/src/fronty.js`:
the virtual-DOM node model, `TreeComparator.diff` and its child-list
reconciliation (`_compareChildren`, `_buildChildrenKeyIndex`,
`_equalAttributes`), the two value-level cases of
`TreeComparator.applyPatches` (`attributes` and `node-value`), the
render-tree tagger `Component._tagTree`, the single-root check in
`Component.render`, and the observable `Model`.

The JavaScript `while` loop of `_compareChildren` and the recursion of
`diff` are embedded with an explicit fuel parameter: `diff fuel a b pol =
some ps` states that the JavaScript execution completes (within `fuel`
steps) with result `ps`, and `∀ fuel, ... = none` states that it diverges.
-/

/-- Node kinds used by the engine (DOM `nodeType` 1, 3 and 8). -/
inductive NodeType where
  | element
  | text
  | comment
deriving DecidableEq, Repr

/-- A virtual DOM node: an element with a tag name, an ordered attribute
list (name/value pairs, as in a DOM `NamedNodeMap`) and ordered children,
or a text / comment node carrying a textual value. -/
inductive VNode where
  | elem (tag : String) (attrs : List (String × String)) (children : List VNode)
  | text (value : String)
  | comment (value : String)
deriving Repr

/-- `nodeType`. -/
def VNode.nodeType : VNode → NodeType
  | .elem _ _ _ => .element
  | .text _ => .text
  | .comment _ => .comment

/-- `tagName`: defined for elements, `undefined` (here `none`) for text and
comment nodes. -/
def VNode.tagName : VNode → Option String
  | .elem t _ _ => some t
  | _ => none

/-- `nodeValue`: `null` (here `none`) for elements, the textual value for
text and comment nodes. -/
def VNode.nodeValue : VNode → Option String
  | .elem _ _ _ => none
  | .text v => some v
  | .comment v => some v

/-- `childNodes`: elements have children; text and comment nodes have none. -/
def VNode.childNodes : VNode → List VNode
  | .elem _ _ cs => cs
  | _ => []

/-- The `attributes` map: present (possibly empty) on elements, `null` on
text and comment nodes. -/
def VNode.attributes : VNode → Option (List (String × String))
  | .elem _ a _ => some a
  | _ => none

/-- `getAttribute name`: the value of the first attribute with this name,
`null` (here `none`) when absent. -/
def VNode.getAttribute (n : VNode) (name : String) : Option String :=
  match n.attributes with
  | none => none
  | some attrs => (attrs.find? (fun p => p.1 = name)).map (fun p => p.2)

mutual

/-- Structural equality test on virtual nodes (decidable equality helper). -/
def VNode.beq : VNode → VNode → Bool
  | .elem t1 a1 c1, .elem t2 a2 c2 => t1 == t2 && a1 == a2 && VNode.beqList c1 c2
  | .text v1, .text v2 => v1 == v2
  | .comment v1, .comment v2 => v1 == v2
  | _, _ => false

/-- Structural equality test on lists of virtual nodes. -/
def VNode.beqList : List VNode → List VNode → Bool
  | [], [] => true
  | x :: xs, y :: ys => VNode.beq x y && VNode.beqList xs ys
  | _, _ => false

end

mutual

/-- `VNode.beq` decides equality. -/
theorem VNode.beq_iff : ∀ a b : VNode, VNode.beq a b = true ↔ a = b
  | .elem t1 a1 c1, .elem t2 a2 c2 => by
    simp [VNode.beq, VNode.beqList_iff c1 c2, and_assoc]
  | .elem _ _ _, .text _ => by simp [VNode.beq]
  | .elem _ _ _, .comment _ => by simp [VNode.beq]
  | .text _, .elem _ _ _ => by simp [VNode.beq]
  | .text _, .text _ => by simp [VNode.beq]
  | .text _, .comment _ => by simp [VNode.beq]
  | .comment _, .elem _ _ _ => by simp [VNode.beq]
  | .comment _, .text _ => by simp [VNode.beq]
  | .comment _, .comment _ => by simp [VNode.beq]

/-- `VNode.beqList` decides equality. -/
theorem VNode.beqList_iff : ∀ a b : List VNode, VNode.beqList a b = true ↔ a = b
  | [], [] => by simp [VNode.beqList]
  | [], _ :: _ => by simp [VNode.beqList]
  | _ :: _, [] => by simp [VNode.beqList]
  | x :: xs, y :: ys => by
    simp [VNode.beqList, VNode.beq_iff x y, VNode.beqList_iff xs ys]

end

instance : DecidableEq VNode := fun a b =>
  decidable_of_iff (VNode.beq a b = true) (VNode.beq_iff a b)

/-- Result of a comparison policy: the strings `'DIFF'`, `'SKIP'`,
`'REPLACE'` accepted by `TreeComparator.diff`. -/
inductive CompareAction where
  | diff
  | skip
  | replace
deriving DecidableEq, Repr

/-- A comparison policy (`comparePolicy` callback). -/
def Policy := VNode → VNode → CompareAction

/-- A patch produced by `TreeComparator.diff`.  `replaceNode` is the patch
with no `mode` field (whole-subtree replacement, the `default` case of
`applyPatches`); the other constructors carry the corresponding `mode`
string.  For `insertNode`, `beforePos` is the JavaScript number
`child1pos + insertions - deletions`. -/
inductive Patch where
  | replaceNode (toReplace replacement : VNode)
  | nodeValue (toReplace replacement : VNode)
  | attributes (toReplace replacement : VNode)
  | removeNode (toReplace : VNode)
  | appendChild (toReplace replacement : VNode)
  | insertNode (toReplace replacement : VNode) (beforePos : Int)
  | swapNodes (toReplace replacement : VNode)
deriving DecidableEq, Repr

/-! ## Attribute primitives (DOM `NamedNodeMap` operations)

Used by `TreeComparator._equalAttributes` and by the `attributes` case of
`TreeComparator.applyPatches`.  An attribute map is an ordered list of
name/value pairs; real DOM maps never contain two attributes of the same
name. -/

/-- DOM `hasAttribute`. -/
def hasAttributeL (attrs : List (String × String)) (name : String) : Bool :=
  attrs.any (fun p => p.1 = name)

/-- DOM `setAttribute`: updates the value in place when the name is present
(keeping its position), otherwise appends the new attribute at the end. -/
def setAttributeL (attrs : List (String × String)) (name value : String) :
    List (String × String) :=
  if hasAttributeL attrs name then
    attrs.map (fun p => if p.1 = name then (name, value) else p)
  else
    attrs ++ [(name, value)]

/-- DOM `removeAttribute`. -/
def removeAttributeL (attrs : List (String × String)) (name : String) :
    List (String × String) :=
  attrs.filter (fun p => ¬ (p.1 = name))

/-- DOM `getAttribute` on an attribute list. -/
def lookupAttr (attrs : List (String × String)) (name : String) : Option String :=
  (attrs.find? (fun p => p.1 = name)).map (fun p => p.2)

/-- `TreeComparator._equalAttributes`: both maps `null` (text/comment
nodes) are equal; `null` versus a map is unequal; otherwise both lists are
filtered of the engine's own `frontyid` attribute and compared by length
and then position by position on names and values, which is exactly list
equality of the filtered lists. -/
def TreeComparator.equalAttributes (node1 node2 : VNode) : Bool :=
  match node1.attributes, node2.attributes with
  | none, none => true
  | none, some _ => false
  | some _, none => false
  | some a1, some a2 =>
      let f1 := a1.filter (fun p => ¬ (p.1 = "frontyid"))
      let f2 := a2.filter (fun p => ¬ (p.1 = "frontyid"))
      f1 == f2

/-! ## The key index (`TreeComparator._buildChildrenKeyIndex`) -/

/-- Assignment `keyElementIndex[key] = {node, pos}` on a JavaScript object:
a later assignment to the same key overwrites the earlier one.  The entry
is stored at the front; `TreeComparator.lookupKeyPos` reads the most recent
entry.  Only the `pos` field is ever read back, so the index stores
key/position pairs. -/
def TreeComparator.putKeyEntry (idx : List (String × Nat)) (k : String) (pos : Nat) :
    List (String × Nat) :=
  (k, pos) :: idx.filter (fun p => ¬ (p.1 = k))

/-- One side of `TreeComparator._buildChildrenKeyIndex`: walk the children
in order and record `key → position` for every element child whose `key`
attribute is truthy (present and non-empty). -/
def TreeComparator.buildChildrenKeyIndex (children : List VNode) : List (String × Nat) :=
  children.enum.foldl
    (fun idx p =>
      if p.2.nodeType = NodeType.element then
        match p.2.getAttribute "key" with
        | some k => if k ≠ "" then TreeComparator.putKeyEntry idx k p.1 else idx
        | none => idx
      else idx)
    []

/-- The string a JavaScript `in` / property lookup uses for a
possibly-`null` key: `null` is coerced to the string `"null"`. -/
def jsKeyString (k : Option String) : String := k.getD "null"

/-- JavaScript `key in index`. -/
def TreeComparator.keyIn (k : String) (idx : List (String × Nat)) : Bool :=
  idx.any (fun p => p.1 = k)

/-- `index[key].pos`.  In every reachable use the key is present (guarded
by `keyIn`), so the default `0` is never read. -/
def TreeComparator.lookupKeyPos (idx : List (String × Nat)) (k : String) : Nat :=
  ((idx.find? (fun p => p.1 = k)).map (fun p => p.2)).getD 0

/-! ## The child-list reconciliation loop (`TreeComparator._compareChildren`) -/

/-- `TreeComparator._swapArrayElements`: exchange the entries at two
positions of the working array. -/
def TreeComparator.swapArrayElements (arr : List VNode) (i j : Nat) : List VNode :=
  match arr.get? i, arr.get? j with
  | some a, some b => (arr.set i b).set j a
  | _, _ => arr

/-- The mutable state of the `while` loop of
`TreeComparator._compareChildren`: the two parent nodes (never written by
the loop — the frame property of claim C7), the working copy
`child1Array = Array.from(node1.childNodes)` (the only structure the swap
branch rearranges), the two cursors and the insertion/deletion counters. -/
structure ScanState where
  node1 : VNode
  node2 : VNode
  child1Array : List VNode
  child1pos : Nat
  child2pos : Nat
  insertions : Nat
  deletions : Nat
deriving DecidableEq, Repr

mutual

/-- Fueled embedding of `TreeComparator.diff`.  `none` means the fuel ran
out before the JavaScript execution completed; a JavaScript execution that
terminates is exactly one that yields `some` for every sufficiently large
fuel, and one that diverges yields `none` for every fuel. -/
def TreeComparator.diff : Nat → VNode → VNode → Option Policy → Option (List Patch)
  | 0, _, _, _ => none
  | Nat.succ fuel, node1, node2, comparePolicy =>
    match (match comparePolicy with
           | some p => p node1 node2
           | none => CompareAction.diff) with
    | CompareAction.skip => some []
    | CompareAction.replace => some [Patch.replaceNode node1 node2]
    | CompareAction.diff =>
      if node1.tagName = node2.tagName ∧ node1.nodeType = node2.nodeType then
        (if node1.childNodes.length > 0 ∨ node2.childNodes.length > 0 then
          (TreeComparator.compareChildren fuel comparePolicy
            (TreeComparator.buildChildrenKeyIndex node1.childNodes)
            (TreeComparator.buildChildrenKeyIndex node2.childNodes)
            { node1 := node1, node2 := node2, child1Array := node1.childNodes,
              child1pos := 0, child2pos := 0, insertions := 0, deletions := 0 }).map
            (fun r => r.1)
         else some []).bind
        (fun result =>
          if (node1.nodeType = NodeType.text ∨ node1.nodeType = NodeType.comment) ∧
             node1.nodeValue ≠ none ∧ node2.nodeValue ≠ none ∧
             node1.nodeValue ≠ node2.nodeValue then
            some [Patch.nodeValue node1 node2]
          else if ¬ TreeComparator.equalAttributes node1 node2 then
            some (result ++ [Patch.attributes node1 node2])
          else
            some result)
      else
        some [Patch.replaceNode node1 node2]

/-- Fueled embedding of the `while` loop of
`TreeComparator._compareChildren` (one unit of fuel per iteration), plus
the trailing removals/appends after the loop.  Returns the emitted patches
together with the final scan state. -/
def TreeComparator.compareChildren : Nat → Option Policy → List (String × Nat) →
    List (String × Nat) → ScanState → Option (List Patch × ScanState)
  | 0, _, _, _, _ => none
  | Nat.succ fuel, comparePolicy, keyElementIndexNode1, keyElementIndexNode2, s =>
    if s.child1pos < s.node1.childNodes.length ∧ s.child2pos < s.node2.childNodes.length then
      let child1 := s.child1Array.getD s.child1pos (VNode.text "")
      let child2 := s.node2.childNodes.getD s.child2pos (VNode.text "")
      if child1.nodeType = NodeType.element ∧ child2.nodeType = NodeType.element then
        let key1 := child1.getAttribute "key"
        let key2 := child2.getAttribute "key"
        if key1 ≠ key2 then
          if TreeComparator.keyIn (jsKeyString key1) keyElementIndexNode2 &&
             TreeComparator.keyIn (jsKeyString key2) keyElementIndexNode1 then
            -- both keys exist on both sides: emit a swap and exchange the
            -- two positions of the working array; cursors do not advance
            let pos := TreeComparator.lookupKeyPos keyElementIndexNode1 (jsKeyString key2)
            (TreeComparator.compareChildren fuel comparePolicy
              keyElementIndexNode1 keyElementIndexNode2
              { s with child1Array :=
                  TreeComparator.swapArrayElements s.child1Array s.child1pos pos }).map
              (fun r =>
                (Patch.swapNodes child1 (s.node1.childNodes.getD pos (VNode.text "")) :: r.1,
                 r.2))
          else
            -- a key unknown on the old side is an insertion; independently,
            -- a key unknown on the new side is a removal
            let step1 :
                List Patch × ScanState :=
              if ¬ TreeComparator.keyIn (jsKeyString key2) keyElementIndexNode1 then
                ([Patch.insertNode s.node1 child2
                    ((s.child1pos : Int) + (s.insertions : Int) - (s.deletions : Int))],
                 { s with insertions := s.insertions + 1, child2pos := s.child2pos + 1 })
              else ([], s)
            let step2 :
                List Patch × ScanState :=
              if ¬ TreeComparator.keyIn (jsKeyString key1) keyElementIndexNode2 then
                (step1.1 ++ [Patch.removeNode child1],
                 { step1.2 with child1pos := step1.2.child1pos + 1,
                                deletions := step1.2.deletions + 1 })
              else step1
            (TreeComparator.compareChildren fuel comparePolicy
              keyElementIndexNode1 keyElementIndexNode2 step2.2).map
              (fun r => (step2.1 ++ r.1, r.2))
        else
          -- equal keys (or both null): recurse and advance both cursors
          (TreeComparator.diff fuel child1 child2 comparePolicy).bind
            (fun sub =>
              (TreeComparator.compareChildren fuel comparePolicy
                keyElementIndexNode1 keyElementIndexNode2
                { s with child1pos := s.child1pos + 1, child2pos := s.child2pos + 1 }).map
                (fun r => (sub ++ r.1, r.2)))
      else if child1.nodeType ≠ NodeType.element ∧ child2.nodeType = NodeType.element then
        (TreeComparator.compareChildren fuel comparePolicy
          keyElementIndexNode1 keyElementIndexNode2
          { s with child1pos := s.child1pos + 1, deletions := s.deletions + 1 }).map
          (fun r => (Patch.removeNode child1 :: r.1, r.2))
      else if child1.nodeType = NodeType.element ∧ child2.nodeType ≠ NodeType.element then
        (TreeComparator.compareChildren fuel comparePolicy
          keyElementIndexNode1 keyElementIndexNode2
          { s with insertions := s.insertions + 1, child2pos := s.child2pos + 1 }).map
          (fun r =>
            (Patch.insertNode s.node1 child2
               ((s.child1pos : Int) + (s.insertions : Int) - (s.deletions : Int)) :: r.1,
             r.2))
      else
        (TreeComparator.diff fuel child1 child2 comparePolicy).bind
          (fun sub =>
            (TreeComparator.compareChildren fuel comparePolicy
              keyElementIndexNode1 keyElementIndexNode2
              { s with child1pos := s.child1pos + 1, child2pos := s.child2pos + 1 }).map
              (fun r => (sub ++ r.1, r.2)))
    else
      -- after the paired walk: remaining old children are removed (read
      -- from the original childNodes, not the working array), remaining
      -- new children are appended
      if s.child1pos < s.node1.childNodes.length then
        some ((s.node1.childNodes.drop s.child1pos).map Patch.removeNode, s)
      else if s.child2pos < s.node2.childNodes.length then
        some ((s.node2.childNodes.drop s.child2pos).map
          (fun c => Patch.appendChild s.node1 c), s)
      else
        some ([], s)

end

/-! ## Patch application (`TreeComparator.applyPatches`), value-level cases -/

/-- One step of the first loop in the `attributes` case of
`TreeComparator.applyPatches`: the replacement's attribute is written to
the (current) target with `setAttribute` unless it is listed in
`skipAttributes` and the target already has it.  The special-cased writes
to a form control's live `value`/`checked` properties touch host live
state outside the attribute map and are not part of it. -/
def TreeComparator.applyAttributeSet (skipAttributes : Option (List String))
    (t : List (String × String)) (attr : String × String) : List (String × String) :=
  if skipAttributes = none ∨ ¬ ((skipAttributes.getD []).contains attr.1) ∨
     ¬ hasAttributeL t attr.1 then
    setAttributeL t attr.1 attr.2
  else t

/-- The `attributes` case of `TreeComparator.applyPatches`, acting on the
target element's attribute map.  First loop: every replacement attribute
is written via `TreeComparator.applyAttributeSet`.  Second loop: walking
the target's live attribute map backwards and removing every attribute
absent from the replacement equals filtering the map to the names the
replacement has. -/
def TreeComparator.applyAttributesPatch (skipAttributes : Option (List String))
    (toReplace replacement : List (String × String)) : List (String × String) :=
  let afterSet := replacement.foldl (TreeComparator.applyAttributeSet skipAttributes) toReplace
  afterSet.filter (fun attr => hasAttributeL replacement attr.1)

/-- The text-node identifier marker prefix `__FTN__:`. -/
def ftnMarker : List Char := "__FTN__:".data

/-- Split a character list into its maximal leading digit run and the
rest. -/
def takeDigits : List Char → List Char × List Char
  | [] => ([], [])
  | c :: cs =>
    if c.isDigit then
      let r := takeDigits cs
      (c :: r.1, r.2)
    else ([], c :: cs)

/-- The match of the regular expression `^(__FTN__:[0-9]+#)` on a value:
the whole marker when the value starts with `__FTN__:`, one or more
digits and `#`, and the empty string otherwise. -/
def markerOf (s : List Char) : List Char :=
  if s.take 8 = ftnMarker then
    let r := takeDigits (s.drop 8)
    if r.1 ≠ [] ∧ r.2.head? = some '#' then ftnMarker ++ r.1 ++ ['#'] else []
  else []

/-- The `node-value` case of `TreeComparator.applyPatches`: the target's
value becomes its own leading marker (or the empty string when the regular
expression does not match) followed by the replacement's value. -/
def TreeComparator.applyNodeValuePatch (toReplaceValue replacementValue : String) : String :=
  String.mk (markerOf toReplaceValue.data ++ replacementValue.data)

/-! ## The render-tree tagger (`Component._tagTree`) -/

mutual

/-- `Component._tagTree`: elements receive a `frontyid` attribute carrying
the generated counter; text and comment nodes are prefixed with the
`__FTN__:<id>#` marker; identifiers are assigned depth-first, pre-order.
The source mutates the tree and the component's counter; the embedding
returns the tagged tree and the next counter value. -/
def Component.tagTree (counter : Nat) : VNode → VNode × Nat
  | .elem t attrs children =>
      let attrs2 := setAttributeL attrs "frontyid" (toString counter)
      let r := Component.tagTreeList (counter + 1) children
      (.elem t attrs2 r.1, r.2)
  | .text v => (.text ("__FTN__:" ++ toString counter ++ "#" ++ v), counter + 1)
  | .comment v => (.comment ("__FTN__:" ++ toString counter ++ "#" ++ v), counter + 1)

/-- `Component._tagTree` over a child list, threading the counter. -/
def Component.tagTreeList (counter : Nat) : List VNode → List VNode × Nat
  | [] => ([], counter)
  | c :: cs =>
      let r := Component.tagTree counter c
      let r2 := Component.tagTreeList r.2 cs
      (r.1 :: r2.1, r2.2)

end

/-! ## The render orchestrator pieces the claims need -/

/-- The DOM `id` property of a node, as the policy closure in
`Component._renderNewTree` reads it: for an element the value of its `id`
attribute (the empty string when absent), `undefined` for text and comment
nodes. -/
def VNode.idProp : VNode → Option String
  | .elem t a cs => some ((VNode.elem t a cs).getAttribute "id" |>.getD "")
  | _ => none

/-- Truthiness of `node.id`. -/
def VNode.idTruthy (n : VNode) : Bool :=
  match n.idProp with
  | some v => v ≠ ""
  | none => false

/-- `s.match(/fronty-text-node/) !== null`: substring containment. -/
def strContainsSub (s pat : List Char) : Bool :=
  s.tails.any (fun t => pat.isPrefixOf t)

/-- The comparison policy closure passed by `Component._renderNewTree` to
`TreeComparator.diff`: `REPLACE` unconditionally on first render; `SKIP`
for a pair of nodes carrying the same truthy id registered as a child
component slot; `REPLACE` when the old node is a registered slot (whose id
disappears or changes); `SKIP` for a comment node containing
`fronty-text-node`; `DIFF` otherwise. -/
def Component.renderComparePolicy (firstRender : Bool) (childComponentIds : List String)
    (node1 node2 : VNode) : CompareAction :=
  if firstRender then CompareAction.replace
  else if VNode.idTruthy node1 && VNode.idTruthy node2 &&
          ((node1.idProp).getD "" == (node2.idProp).getD "") &&
          childComponentIds.contains ((node1.idProp).getD "") then
    CompareAction.skip
  else if VNode.idTruthy node1 && childComponentIds.contains ((node1.idProp).getD "") then
    CompareAction.replace
  else if node1.nodeType = NodeType.comment &&
          (match node1.nodeValue with
           | some v => strContainsSub v.data "fronty-text-node".data
           | none => false) then
    CompareAction.skip
  else
    CompareAction.diff

/-- `Component._defaultParsingService.parse`: the markup is parsed into a
`div` (modelled as the forest of root nodes the host parser produces) and
the callback receives `elem.firstChild` — only the first parsed root. -/
def Component.defaultParsingServiceParse (parsedRoots : List VNode) : Option VNode :=
  parsedRoots.head?

/-- The string branch of `Component.render`: the parsing service's callback
appends the node it was given to the empty `newTree` element, throws when
`newTree` then has more than one child, and otherwise continues into
`Component._renderNewTree` with `newTree.firstChild`.  (`appendChild` of
`null`, for markup that parses to nothing, throws a host `TypeError`.) -/
def Component.renderStringBranch (parsedRoots : List VNode) : Except String VNode :=
  match Component.defaultParsingServiceParse parsedRoots with
  | none => Except.error "TypeError"
  | some node =>
      let newTreeChildren : List VNode := [node]
      if newTreeChildren.length > 1 then
        Except.error "Rendering function MUST return a tree with a single root element"
      else
        Except.ok node

/-- The root-id copy in `Component._renderNewTree`: when the new tree's
root is an element, its `id` attribute is set to the component's target
id. -/
def Component.setRootId (n : VNode) (htmlNodeId : String) : VNode :=
  match n with
  | .elem t a cs => .elem t (setAttributeL a "id" htmlNodeId) cs
  | other => other

/-! ## The observable `Model` -/

/-- The observable state object: a name, user data and the registered
observer callbacks (represented by opaque identifiers, in registration
order).  `δ` is the user data, `ω` identifies observer functions. -/
structure JsModel (δ ω : Type) where
  name : String
  data : δ
  observers : List ω

/-- Events observable during `Model.set`: the update callback returning,
and an observer being invoked with the model and the hint. -/
inductive ModelEvent (δ ω η : Type) where
  | updateReturned (m : JsModel δ ω)
  | observerCall (m : JsModel δ ω) (observer : ω) (hint : Option η)

/-- The `for` loop of `Model.notifyObservers`, from index `i`: each
observer in `this.observers` is called with `(this, hint)`. -/
def Model.notifyLoop {δ ω η : Type} (m : JsModel δ ω) (hint : Option η) (i : Nat) :
    List (ModelEvent δ ω η) :=
  if h : i < m.observers.length then
    ModelEvent.observerCall m (m.observers.get ⟨i, h⟩) hint :: Model.notifyLoop m hint (i + 1)
  else []
termination_by m.observers.length - i

/-- `Model.notifyObservers`. -/
def Model.notifyObservers {δ ω η : Type} (m : JsModel δ ω) (hint : Option η) :
    List (ModelEvent δ ω η) :=
  Model.notifyLoop m hint 0

/-- `Model.set(update, hint)`: run `update(this)` to completion, then
notify the observers.  The update callback receives the model itself and
may change it (including its observer list); the embedding returns the
updated model and the trace of events in execution order. -/
def Model.set {δ ω η : Type} (m : JsModel δ ω) (update : JsModel δ ω → JsModel δ ω)
    (hint : Option η) : JsModel δ ω × List (ModelEvent δ ω η) :=
  let m1 := update m
  (m1, ModelEvent.updateReturned m1 :: Model.notifyObservers m1 hint)

/-- `Model.addObserver`: `push` appends at the end, so the observer list is
in registration order. -/
def Model.addObserver {δ ω : Type} (m : JsModel δ ω) (observer : ω) : JsModel δ ω :=
  { m with observers := m.observers ++ [observer] }

/-! ## Concrete inputs used by the claims -/

/-- `A(key=1)`: an element child with key `1`. -/
def nodeA : VNode := VNode.elem "div" [("key", "1")] []

/-- `B(key=2)`. -/
def nodeB : VNode := VNode.elem "div" [("key", "2")] []

/-- `C(key=3)`. -/
def nodeC : VNode := VNode.elem "div" [("key", "3")] []

/-- Old parent for the keyed-rotation example: children `[A, B, C]`. -/
def rotationOld : VNode := VNode.elem "div" [] [nodeA, nodeB, nodeC]

/-- New parent for the keyed-rotation example: children `[C, A, B]`, node
contents unchanged. -/
def rotationNew : VNode := VNode.elem "div" [] [nodeC, nodeA, nodeB]

/-- Old parent for the insertion example: children `[A, B]`. -/
def insertOld : VNode := VNode.elem "div" [] [nodeA, nodeB]

/-- New parent for the insertion example: children `[A, C, B]`. -/
def insertNew : VNode := VNode.elem "div" [] [nodeA, nodeC, nodeB]

/-- Key index built from the rotation example's old children `[A, B, C]`. -/
def rotIdx1 : List (String × Nat) := TreeComparator.buildChildrenKeyIndex rotationOld.childNodes

/-- Key index built from the rotation example's new children `[C, A, B]`. -/
def rotIdx2 : List (String × Nat) := TreeComparator.buildChildrenKeyIndex rotationNew.childNodes

/-- The initial scan state of `_compareChildren` on the rotation example. -/
def rotState0 : ScanState := ⟨rotationOld, rotationNew, [nodeA, nodeB, nodeC], 0, 0, 0, 0⟩

/-- The scan state after the first swap: working array `[C, B, A]`, cursors
still at 0. -/
def rotState1 : ScanState := ⟨rotationOld, rotationNew, [nodeC, nodeB, nodeA], 0, 0, 0, 0⟩

/-- First state of the infinite two-cycle: working array `[C, B, A]`, both
cursors at 1.  The scan wants `A(key=1)` at position 1 but the stale key
index still maps key `1` to position 0, which the first swap left holding
`C`. -/
def rotStateA : ScanState := ⟨rotationOld, rotationNew, [nodeC, nodeB, nodeA], 1, 1, 0, 0⟩

/-- Second state of the infinite two-cycle: working array `[B, C, A]`, both
cursors at 1. -/
def rotStateB : ScanState := ⟨rotationOld, rotationNew, [nodeB, nodeC, nodeA], 1, 1, 0, 0⟩

/-! Size measure and element-only predicate for the re-render induction
(claim C4). -/

mutual

/-- Node-count measure on virtual trees. -/
def vsize : VNode → Nat
  | .elem _ _ cs => 1 + vsizeList cs
  | .text _ => 1
  | .comment _ => 1

def vsizeList : List VNode → Nat
  | [] => 0
  | c :: cs => vsize c + vsizeList cs

end

mutual

/-- A tree all of whose nodes are elements (no text or comment nodes). -/
def VNode.elementOnly : VNode → Bool
  | .elem _ _ cs => VNode.elementOnlyList cs
  | _ => false

/-- All nodes of all trees in the list are elements. -/
def VNode.elementOnlyList : List VNode → Bool
  | [] => true
  | c :: cs => VNode.elementOnly c && VNode.elementOnlyList cs

end

/-- The policy `Component._renderNewTree` passes to `diff` on a re-render
of a component without child components. -/
def rerenderPolicy : Option Policy := some (Component.renderComparePolicy false [])

/-- Render output for the C4 counterexample: `<div>Hi</div>`. -/
def c4Output : VNode := VNode.elem "div" [] [VNode.text "Hi"]

/-- The previous virtual tree after the first render of `c4Output` into
target id `app`: the whole tree is tagged, then the root receives the
target id. -/
def c4Prev : VNode := Component.setRootId (Component.tagTree 0 c4Output).1 "app"

/-- The new virtual tree of a byte-identical re-render: the same output,
untagged, with the root id set. -/
def c4New : VNode := Component.setRootId c4Output "app"

/-! ## Theorems -/

/-! ### Non-termination of the keyed rotation (claims C1 and C2)

On old children `[A(key=1), B(key=2), C(key=3)]` and new children
`[C(key=3), A(key=1), B(key=2)]` the scan first swaps positions 0 and 2 of
the working array (`[C, B, A]`) and advances past the matching `C`.  At
cursor 1 it looks key `1` up in the prebuilt index, which still says
position 0 — but position 0 of the working array now holds `C`, not `A`.
The swap branch therefore exchanges positions 1 and 0 without advancing,
and the scan alternates between the two states below forever. -/

theorem rotStepA (n : Nat) (pol : Option Policy) :
    TreeComparator.compareChildren (n + 1) pol rotIdx1 rotIdx2 rotStateA =
    (TreeComparator.compareChildren n pol rotIdx1 rotIdx2 rotStateB).map
      (fun r => (Patch.swapNodes nodeB nodeA :: r.1, r.2)) := rfl

theorem rotStepB (n : Nat) (pol : Option Policy) :
    TreeComparator.compareChildren (n + 1) pol rotIdx1 rotIdx2 rotStateB =
    (TreeComparator.compareChildren n pol rotIdx1 rotIdx2 rotStateA).map
      (fun r => (Patch.swapNodes nodeC nodeA :: r.1, r.2)) := rfl

theorem rotCycle (n : Nat) (pol : Option Policy) :
    TreeComparator.compareChildren n pol rotIdx1 rotIdx2 rotStateA = none ∧
    TreeComparator.compareChildren n pol rotIdx1 rotIdx2 rotStateB = none := by
  induction n with
  | zero => exact ⟨rfl, rfl⟩
  | succ n ih =>
    refine ⟨?_, ?_⟩
    · rw [rotStepA n pol, ih.2]; rfl
    · rw [rotStepB n pol, ih.1]; rfl

theorem rotStep1 (n : Nat) (pol : Option Policy) :
    TreeComparator.compareChildren (n + 1) pol rotIdx1 rotIdx2 rotState1 =
    (TreeComparator.diff n nodeC nodeC pol).bind
      (fun sub =>
        (TreeComparator.compareChildren n pol rotIdx1 rotIdx2 rotStateA).map
          (fun r => (sub ++ r.1, r.2))) := rfl

theorem rotDead1 (n : Nat) (pol : Option Policy) :
    TreeComparator.compareChildren n pol rotIdx1 rotIdx2 rotState1 = none := by
  cases n with
  | zero => rfl
  | succ n =>
    rw [rotStep1 n pol]
    cases TreeComparator.diff n nodeC nodeC pol with
    | none => rfl
    | some sub => simp [(rotCycle n pol).1]

theorem rotStep0 (n : Nat) (pol : Option Policy) :
    TreeComparator.compareChildren (n + 1) pol rotIdx1 rotIdx2 rotState0 =
    (TreeComparator.compareChildren n pol rotIdx1 rotIdx2 rotState1).map
      (fun r => (Patch.swapNodes nodeA nodeC :: r.1, r.2)) := rfl

theorem rotDead0 (n : Nat) (pol : Option Policy) :
    TreeComparator.compareChildren n pol rotIdx1 rotIdx2 rotState0 = none := by
  cases n with
  | zero => rfl
  | succ n => rw [rotStep0 n pol, rotDead1 n pol]; rfl

/-- C1: false of the code — on old `[A(key=1), B(key=2), C(key=3)]` versus
new `[C(key=3), A(key=1), B(key=2)]` with unchanged contents (diffed under
the re-render policy of `Component._renderNewTree` with no child
components), `TreeComparator.diff` never returns at all: the swap branch
updates the working array through the stale prebuilt index and the scan
revisits the same state forever, so no fuel suffices.  The spec's promised
swap-only patch list is never produced. -/
theorem claim_C1_rotation_diff_diverges :
    ∀ n : Nat,
      TreeComparator.diff n rotationOld rotationNew
        (some (Component.renderComparePolicy false [])) = none := by
  intro n
  cases n with
  | zero => rfl
  | succ n =>
    show ((TreeComparator.compareChildren n (some (Component.renderComparePolicy false []))
        rotIdx1 rotIdx2 rotState0).map (fun r => r.1)).bind _ = none
    rw [rotDead0 n (some (Component.renderComparePolicy false []))]
    rfl

/-- C2: false of the code — `TreeComparator.diff` does not terminate on
every pair of finite trees: with no comparison policy, the three-element
keyed rotation makes the child-reconciliation loop cycle between two
states without ever advancing a cursor, so the result is `none` for every
fuel. -/
theorem claim_C2_diff_not_terminating :
    ∀ n : Nat, TreeComparator.diff n rotationOld rotationNew none = none := by
  intro n
  cases n with
  | zero => rfl
  | succ n =>
    show ((TreeComparator.compareChildren n none rotIdx1 rotIdx2 rotState0).map
      (fun r => r.1)).bind _ = none
    rw [rotDead0 n none]
    rfl

/-- C3: false of the code — markup parsing to more than one root node does
not fail the render: `Component._defaultParsingService.parse` hands only
`elem.firstChild` to the render callback, so `newTree` always ends up with
exactly one child, the multi-root throw is unreachable, and the render
proceeds with the first root (modifying the host tree) while silently
dropping the rest. -/
theorem claim_C3_multiroot_not_rejected (r1 r2 : VNode) (rest : List VNode) :
    Component.renderStringBranch (r1 :: r2 :: rest) = Except.ok r1 := rfl

/-- C5: diffing old `[A(key=1), B(key=2)]` against new
`[A(key=1), C(key=3), B(key=2)]` yields exactly one `insert-node` patch
for `C` (before position `1 = child1pos + insertions - deletions`) and no
`remove-node` or `swap-nodes` patch; the reverse transition yields exactly
one `remove-node` patch for `C`. -/
theorem claim_C5_keyed_insert_remove :
    TreeComparator.diff 10 insertOld insertNew none =
      some [Patch.insertNode insertOld nodeC 1] ∧
    TreeComparator.diff 10 insertNew insertOld none =
      some [Patch.removeNode nodeC] :=
  ⟨rfl, rfl⟩

/-- C6: whenever the comparison policy answers `SKIP` on the node pair,
`TreeComparator.diff` returns the empty patch list without looking at
either subtree; whenever it answers `REPLACE`, `diff` returns exactly the
single whole-subtree replacement patch `(node1 → node2)` without
descending. -/
theorem claim_C6_policy_skip_replace (n : Nat) (a b : VNode) (pol : Policy) :
    (pol a b = CompareAction.skip → TreeComparator.diff (n + 1) a b (some pol) = some []) ∧
    (pol a b = CompareAction.replace →
      TreeComparator.diff (n + 1) a b (some pol) = some [Patch.replaceNode a b]) := by
  constructor <;> intro h <;> simp only [TreeComparator.diff, h]

/-- Witness for C6 at concrete inputs: a constant-`SKIP` policy yields `[]`
and a constant-`REPLACE` policy yields the single replacement patch on the
pair `(A, B)`. -/
theorem claim_C6_policy_skip_replace_witness :
    TreeComparator.diff 1 nodeA nodeB (some (fun _ _ => CompareAction.skip)) = some [] ∧
    TreeComparator.diff 1 nodeA nodeB (some (fun _ _ => CompareAction.replace)) =
      some [Patch.replaceNode nodeA nodeB] :=
  ⟨(claim_C6_policy_skip_replace 0 nodeA nodeB (fun _ _ => CompareAction.skip)).1 rfl,
   (claim_C6_policy_skip_replace 0 nodeA nodeB (fun _ _ => CompareAction.replace)).2 rfl⟩

/-- The `for` loop of `Model.notifyObservers` from index `i` calls exactly
the observers from position `i` on, in order, each once. -/
theorem Model.notifyLoop_eq {δ ω η : Type} (m : JsModel δ ω) (hint : Option η) :
    ∀ i, Model.notifyLoop m hint i =
      (m.observers.drop i).map (fun o => ModelEvent.observerCall m o hint) := by
  have key : ∀ (n i : Nat), m.observers.length - i = n →
      Model.notifyLoop m hint i =
        (m.observers.drop i).map (fun o => ModelEvent.observerCall m o hint) := by
    intro n
    induction n with
    | zero =>
      intro i hi
      rw [Model.notifyLoop]
      have hle : m.observers.length ≤ i := Nat.le_of_sub_eq_zero hi
      rw [dif_neg (by omega), List.drop_eq_nil_of_le hle]
      rfl
    | succ n ih =>
      intro i hi
      have hlt : i < m.observers.length := by omega
      rw [Model.notifyLoop, dif_pos hlt, ih (i + 1) (by omega)]
      rw [List.drop_eq_getElem_cons hlt]
      rfl
  intro i
  exact key (m.observers.length - i) i rfl

/-- C10: `Model.set(update, hint)` first runs `update(this)` to completion
and only then notifies; the notification trace calls exactly the observers
registered at notification time, each exactly once, in registration order
(`addObserver` pushes at the end), with arguments `(this, hint)`. -/
theorem claim_C10_model_set {δ ω η : Type} (m : JsModel δ ω)
    (update : JsModel δ ω → JsModel δ ω) (hint : Option η) :
    (Model.set m update hint).2 =
      ModelEvent.updateReturned (update m) ::
        (update m).observers.map (fun o => ModelEvent.observerCall (update m) o hint) ∧
    (Model.set m update hint).1 = update m ∧
    ∀ o : ω, (Model.addObserver m o).observers = m.observers ++ [o] := by
  refine ⟨?_, rfl, fun o => rfl⟩
  show ModelEvent.updateReturned (update m) :: Model.notifyObservers (update m) hint = _
  rw [Model.notifyObservers, Model.notifyLoop_eq]
  rfl

/-! ### The `node-value` patch preserves the leading marker (claim C9) -/

theorem takeDigits_digits_hash (p : List Char) :
    ∀ ds : List Char, ds.all Char.isDigit = true →
      takeDigits (ds ++ '#' :: p) = (ds, '#' :: p) := by
  intro ds
  induction ds with
  | nil =>
    intro _
    show takeDigits ('#' :: p) = ([], '#' :: p)
    rw [takeDigits]
    rw [if_neg (by decide)]
  | cons c cs ih =>
    intro h
    rw [List.all_cons, Bool.and_eq_true] at h
    show takeDigits (c :: (cs ++ '#' :: p)) = (c :: cs, '#' :: p)
    rw [takeDigits, if_pos h.1, ih h.2]

/-- The regular expression `^(__FTN__:[0-9]+#)` matches exactly the marker
on a value of the form `__FTN__:<digits>#<payload>`. -/
theorem markerOf_marked (ds p : List Char) (hne : ds ≠ [])
    (hdig : ds.all Char.isDigit = true) :
    markerOf (ftnMarker ++ (ds ++ '#' :: p)) = ftnMarker ++ (ds ++ ['#']) := by
  have h8 : (8 : Nat) = ftnMarker.length := rfl
  have htake : (ftnMarker ++ (ds ++ '#' :: p)).take 8 = ftnMarker := by
    rw [h8, List.take_left]
  have hdrop : (ftnMarker ++ (ds ++ '#' :: p)).drop 8 = ds ++ '#' :: p := by
    rw [h8, List.drop_left]
  rw [markerOf, if_pos htake, hdrop, takeDigits_digits_hash p ds hdig]
  simp [hne]

/-- C9: applying a `node-value` patch to a target whose value carries a
leading `__FTN__:<id>#` marker sets the value to that same marker followed
by the replacement's value (only the payload after the marker is
replaced); a target whose value carries no marker receives the
replacement's value unchanged. -/
theorem claim_C9_node_value_marker :
    (∀ ds payload rep : String, ds.data ≠ [] → ds.data.all Char.isDigit = true →
      TreeComparator.applyNodeValuePatch ("__FTN__:" ++ ds ++ "#" ++ payload) rep =
        "__FTN__:" ++ ds ++ "#" ++ rep) ∧
    (∀ v rep : String, markerOf v.data = [] →
      TreeComparator.applyNodeValuePatch v rep = rep) := by
  constructor
  · intro ds payload rep hne hdig
    apply String.ext
    show markerOf ("__FTN__:" ++ ds ++ "#" ++ payload).data ++ rep.data =
      ("__FTN__:" ++ ds ++ "#" ++ rep).data
    have hdata : ("__FTN__:" ++ ds ++ "#" ++ payload).data =
        ftnMarker ++ (ds.data ++ '#' :: payload.data) := by
      show ("__FTN__:".data ++ ds.data ++ "#".data ++ payload.data) = _
      simp [ftnMarker]
    rw [hdata, markerOf_marked ds.data payload.data hne hdig]
    show (ftnMarker ++ (ds.data ++ ['#'])) ++ rep.data =
      "__FTN__:".data ++ ds.data ++ "#".data ++ rep.data
    simp [ftnMarker]
  · intro v rep h
    show String.mk (markerOf v.data ++ rep.data) = rep
    rw [h]
    show String.mk rep.data = rep
    rfl

/-- Witness for C9: the marked target `__FTN__:12#old` patched with
replacement value `new` becomes `__FTN__:12#new`, and the unmarked target
`plain` becomes `new` outright. -/
theorem claim_C9_node_value_marker_witness :
    TreeComparator.applyNodeValuePatch ("__FTN__:" ++ "12" ++ "#" ++ "old") "new" =
      "__FTN__:" ++ "12" ++ "#" ++ "new" ∧
    TreeComparator.applyNodeValuePatch "plain" "new" = "new" :=
  ⟨claim_C9_node_value_marker.1 "12" "old" "new" (by decide) (by decide),
   claim_C9_node_value_marker.2 "plain" "new" (by decide)⟩

/-! ### Purity of the scan (claim C7) -/

theorem cons_set_perm {α : Type _} :
    ∀ (xs : List α) (k : Nat) (x b : α), xs.get? k = some b →
      (b :: xs.set k x).Perm (x :: xs) := by
  intro xs
  induction xs with
  | nil => intro k x b h; simp at h
  | cons y ys ih =>
    intro k x b h
    cases k with
    | zero =>
      simp at h
      subst h
      exact List.Perm.swap x y ys
    | succ k =>
      simp only [List.get?_cons_succ] at h
      show (b :: y :: ys.set k x).Perm (x :: y :: ys)
      exact ((List.Perm.swap y b (ys.set k x)).trans ((ih k x b h).cons y)).trans
        (List.Perm.swap x y ys)

theorem set_set_perm {α : Type _} :
    ∀ (l : List α) (i j : Nat) (a b : α), l.get? i = some a → l.get? j = some b →
      ((l.set i b).set j a).Perm l := by
  intro l
  induction l with
  | nil => intro i j a b h; simp at h
  | cons z zs ih =>
    intro i j a b ha hb
    cases i with
    | zero =>
      simp at ha
      cases j with
      | zero =>
        simp at hb
        subst ha; subst hb
        rfl
      | succ j =>
        simp only [List.get?_cons_succ] at hb
        show (b :: zs.set j a).Perm (z :: zs)
        rw [ha]
        exact cons_set_perm zs j a b hb
    | succ i =>
      simp only [List.get?_cons_succ] at ha
      cases j with
      | zero =>
        simp at hb
        show (a :: zs.set i b).Perm (z :: zs)
        rw [hb]
        exact cons_set_perm zs i b a ha
      | succ j =>
        simp only [List.get?_cons_succ] at hb
        show (z :: (zs.set i b).set j a).Perm (z :: zs)
        exact (ih i j a b ha hb).cons z

theorem swapArrayElements_perm (arr : List VNode) (i j : Nat) :
    (TreeComparator.swapArrayElements arr i j).Perm arr := by
  rw [TreeComparator.swapArrayElements]
  cases h1 : arr.get? i with
  | none => rfl
  | some a =>
    cases h2 : arr.get? j with
    | none => rfl
    | some b => exact set_set_perm arr i j a b h1 h2

/-- C7: the frame property of the reconciliation scan.  `diff`'s only
mutable structure is the scan state of `_compareChildren`; whenever the
scan completes, the two parent trees it carries are returned exactly as
given (no node, child-list, attribute or text-value of either tree is
written), and the working array — the `Array.from` copy that the swap
branch rearranges in place of the DOM — is still a permutation of the
original child list. -/
theorem claim_C7_diff_pure_scan_frame :
    ∀ (n : Nat) (pol : Option Policy) (idx1 idx2 : List (String × Nat))
      (s : ScanState) (ps : List Patch) (s2 : ScanState),
      TreeComparator.compareChildren n pol idx1 idx2 s = some (ps, s2) →
      s2.node1 = s.node1 ∧ s2.node2 = s.node2 ∧ s2.child1Array.Perm s.child1Array := by
  intro n
  induction n with
  | zero =>
    intro pol idx1 idx2 s ps s2 h
    exact absurd h (by simp [TreeComparator.compareChildren])
  | succ n ih =>
    intro pol idx1 idx2 s ps s2 h
    rw [TreeComparator.compareChildren] at h
    split at h
    · -- loop body
      dsimp only at h
      split at h
      · -- element / element
        split at h
        · -- keys differ
          split at h
          · -- swap branch
            obtain ⟨⟨ps3, s3⟩, hrec, heq⟩ := Option.map_eq_some'.mp h
            obtain ⟨h1, h2, h3⟩ := ih _ _ _ _ _ _ hrec
            injection heq with heq1 heq2
            subst heq2
            exact ⟨h1, h2, h3.trans (swapArrayElements_perm _ _ _)⟩
          · -- insert / remove branch
            split at h
            all_goals split at h
            all_goals (
              obtain ⟨⟨ps3, s3⟩, hrec, heq⟩ := Option.map_eq_some'.mp h
              obtain ⟨h1, h2, h3⟩ := ih _ _ _ _ _ _ hrec
              injection heq with heq1 heq2
              subst heq2
              exact ⟨h1, h2, h3⟩)
        · -- equal keys: bind over recursive diff
          rcases hd : TreeComparator.diff n (s.child1Array.getD s.child1pos (VNode.text ""))
              (s.node2.childNodes.getD s.child2pos (VNode.text "")) pol with _ | sub
          · rw [hd] at h; simp at h
          · rw [hd] at h
            simp only [Option.some_bind] at h
            obtain ⟨⟨ps3, s3⟩, hrec, heq⟩ := Option.map_eq_some'.mp h
            obtain ⟨h1, h2, h3⟩ := ih _ _ _ _ _ _ hrec
            injection heq with heq1 heq2
            subst heq2
            exact ⟨h1, h2, h3⟩
      · -- not element/element
        split at h
        · -- non-element removed
          obtain ⟨⟨ps3, s3⟩, hrec, heq⟩ := Option.map_eq_some'.mp h
          obtain ⟨h1, h2, h3⟩ := ih _ _ _ _ _ _ hrec
          injection heq with heq1 heq2
          subst heq2
          exact ⟨h1, h2, h3⟩
        · split at h
          · -- non-element inserted
            obtain ⟨⟨ps3, s3⟩, hrec, heq⟩ := Option.map_eq_some'.mp h
            obtain ⟨h1, h2, h3⟩ := ih _ _ _ _ _ _ hrec
            injection heq with heq1 heq2
            subst heq2
            exact ⟨h1, h2, h3⟩
          · -- both non-element: bind over recursive diff
            rcases hd : TreeComparator.diff n (s.child1Array.getD s.child1pos (VNode.text ""))
                (s.node2.childNodes.getD s.child2pos (VNode.text "")) pol with _ | sub
            · rw [hd] at h; simp at h
            · rw [hd] at h
              simp only [Option.some_bind] at h
              obtain ⟨⟨ps3, s3⟩, hrec, heq⟩ := Option.map_eq_some'.mp h
              obtain ⟨h1, h2, h3⟩ := ih _ _ _ _ _ _ hrec
              injection heq with heq1 heq2
              subst heq2
              exact ⟨h1, h2, h3⟩
    · -- loop finished: the state is returned unchanged
      split at h
      · injection h with h'
        injection h' with h1 h2
        subst h2
        exact ⟨rfl, rfl, List.Perm.refl _⟩
      · split at h
        · injection h with h'
          injection h' with h1 h2
          subst h2
          exact ⟨rfl, rfl, List.Perm.refl _⟩
        · injection h with h'
          injection h' with h1 h2
          subst h2
          exact ⟨rfl, rfl, List.Perm.refl _⟩

/-- Witness for C7 at a completed concrete scan (the insertion example):
the final state keeps `node1`, `node2` and a permutation (here: equal) of
the working array. -/
theorem claim_C7_diff_pure_scan_frame_witness :
    (⟨insertOld, insertNew, [nodeA, nodeB], 2, 3, 1, 0⟩ : ScanState).node1 =
        (⟨insertOld, insertNew, [nodeA, nodeB], 0, 0, 0, 0⟩ : ScanState).node1 ∧
    (⟨insertOld, insertNew, [nodeA, nodeB], 2, 3, 1, 0⟩ : ScanState).node2 =
        (⟨insertOld, insertNew, [nodeA, nodeB], 0, 0, 0, 0⟩ : ScanState).node2 ∧
    (⟨insertOld, insertNew, [nodeA, nodeB], 2, 3, 1, 0⟩ : ScanState).child1Array.Perm
        (⟨insertOld, insertNew, [nodeA, nodeB], 0, 0, 0, 0⟩ : ScanState).child1Array :=
  claim_C7_diff_pure_scan_frame 10 none
    (TreeComparator.buildChildrenKeyIndex insertOld.childNodes)
    (TreeComparator.buildChildrenKeyIndex insertNew.childNodes)
    ⟨insertOld, insertNew, [nodeA, nodeB], 0, 0, 0, 0⟩
    [Patch.insertNode insertOld nodeC 1]
    ⟨insertOld, insertNew, [nodeA, nodeB], 2, 3, 1, 0⟩
    rfl

/-! ### Attribute diffing round-trip (claim C8) -/

theorem lookupAttr_nil (m : String) : lookupAttr [] m = none := rfl

theorem lookupAttr_cons (a : String × String) (t : List (String × String)) (m : String) :
    lookupAttr (a :: t) m = if a.1 = m then some a.2 else lookupAttr t m := by
  by_cases h : a.1 = m <;> simp [lookupAttr, List.find?_cons, h]

theorem hasAttributeL_cons (a : String × String) (t : List (String × String)) (m : String) :
    hasAttributeL (a :: t) m = (decide (a.1 = m) || hasAttributeL t m) := by
  simp [hasAttributeL]

theorem hasAttributeL_lookup (t : List (String × String)) (m : String) :
    hasAttributeL t m = true ↔ ∃ v, lookupAttr t m = some v := by
  induction t with
  | nil => simp [hasAttributeL, lookupAttr]
  | cons a t ih =>
    by_cases h : a.1 = m <;> simp [hasAttributeL_cons, lookupAttr_cons, h, ih]

theorem lookupAttr_mem (t : List (String × String)) (m v : String)
    (h : lookupAttr t m = some v) : (m, v) ∈ t := by
  induction t with
  | nil => simp [lookupAttr] at h
  | cons a t ih =>
    rw [lookupAttr_cons] at h
    by_cases ha : a.1 = m
    · rw [if_pos ha] at h
      injection h with h
      have : a = (m, v) := Prod.ext ha h
      rw [← this]
      exact List.mem_cons_self a t
    · rw [if_neg ha] at h
      exact List.mem_cons_of_mem a (ih h)

theorem lookup_filter_name (q : String → Bool) (m : String) :
    ∀ t : List (String × String),
      lookupAttr (t.filter (fun p => q p.1)) m = if q m then lookupAttr t m else none := by
  intro t
  induction t with
  | nil => by_cases hq : q m <;> simp [lookupAttr, hq]
  | cons a t ih =>
    by_cases hm : a.1 = m
    · by_cases hq : q a.1
      · simp [List.filter_cons, hq, lookupAttr_cons, hm, hm ▸ hq]
      · have hqm : q m = false := by rw [← hm]; exact Bool.not_eq_true _ ▸ (by simpa using hq)
        simp [List.filter_cons, hq, lookupAttr_cons, hm, hqm, ih]
    · by_cases hq : q a.1
      · simp [List.filter_cons, hq, lookupAttr_cons, hm, ih]
      · simp [List.filter_cons, hq, lookupAttr_cons, hm, ih]

theorem lookup_set_self (t : List (String × String)) (n v : String) :
    lookupAttr (setAttributeL t n v) n = some v := by
  rw [setAttributeL]
  split
  · rename_i hhas
    induction t with
    | nil => simp [hasAttributeL] at hhas
    | cons a t ih =>
      by_cases hm : a.1 = n
      · simp [lookupAttr_cons, hm]
      · rw [List.map_cons, if_neg hm, lookupAttr_cons]
        rw [if_neg hm]
        apply ih
        simpa [hasAttributeL_cons, hm] using hhas
  · induction t with
    | nil => simp [lookupAttr_cons]
    | cons a t ih =>
      rename_i hhas
      have ha : ¬ (a.1 = n) := fun h => hhas (by simp [hasAttributeL_cons, h])
      rw [List.cons_append, lookupAttr_cons, if_neg ha]
      exact ih (fun h => hhas (by simp [hasAttributeL_cons, h]))

theorem lookup_set_other (t : List (String × String)) (n v m : String) (hm : ¬ (m = n)) :
    lookupAttr (setAttributeL t n v) m = lookupAttr t m := by
  rw [setAttributeL]
  split
  · rename_i hhas
    clear hhas
    induction t with
    | nil => simp
    | cons a t ih =>
      by_cases ha : a.1 = n
      · rw [List.map_cons, if_pos ha, lookupAttr_cons, lookupAttr_cons]
        rw [if_neg (fun h => hm h.symm), if_neg (by rw [ha]; exact fun h => hm h.symm), ih]
      · rw [List.map_cons, if_neg ha, lookupAttr_cons, lookupAttr_cons, ih]
  · rename_i hhas
    clear hhas
    induction t with
    | nil =>
      rw [List.nil_append, lookupAttr_cons, if_neg (fun h => hm h.symm)]
    | cons a t ih =>
      rw [List.cons_append, lookupAttr_cons, lookupAttr_cons, ih]

theorem applyAttributeSet_other (sk : Option (List String)) (t : List (String × String))
    (attr : String × String) (m : String) (hm : ¬ (m = attr.1)) :
    lookupAttr (TreeComparator.applyAttributeSet sk t attr) m = lookupAttr t m := by
  rw [TreeComparator.applyAttributeSet]
  split
  · exact lookup_set_other t attr.1 attr.2 m hm
  · rfl

theorem applyAttributeSet_self_frontyid (t : List (String × String)) (nm v : String)
    (hnm : ¬ (nm = "frontyid")) :
    lookupAttr (TreeComparator.applyAttributeSet (some ["frontyid"]) t (nm, v)) nm = some v := by
  rw [TreeComparator.applyAttributeSet, if_pos (Or.inr (Or.inl (by simp [hnm])))]
  exact lookup_set_self t nm v

theorem foldSet_untouched (rest : List (String × String)) :
    ∀ (t : List (String × String)) (nm : String), (∀ a ∈ rest, ¬ (a.1 = nm)) →
      lookupAttr (rest.foldl (TreeComparator.applyAttributeSet (some ["frontyid"])) t) nm =
        lookupAttr t nm := by
  induction rest with
  | nil => intro t nm _; rfl
  | cons a rs ih =>
    intro t nm h
    rw [List.foldl_cons, ih _ nm (fun b hb => h b (List.mem_cons_of_mem a hb))]
    exact applyAttributeSet_other _ t a nm
      (fun he => h a (List.mem_cons_self a rs) he.symm)

theorem foldSet_found (a2 : List (String × String)) :
    ∀ (t : List (String × String)) (nm v : String), (a2.map Prod.fst).Nodup →
      (nm, v) ∈ a2 → ¬ (nm = "frontyid") →
      lookupAttr (a2.foldl (TreeComparator.applyAttributeSet (some ["frontyid"])) t) nm =
        some v := by
  induction a2 with
  | nil => intro t nm v _ hmem; simp at hmem
  | cons a rs ih =>
    intro t nm v hnodup hmem hnm
    rw [List.map_cons, List.nodup_cons] at hnodup
    rcases List.mem_cons.mp hmem with heq | hmem2
    · subst heq
      rw [List.foldl_cons]
      have hnames : ∀ b ∈ rs, ¬ (b.1 = (nm, v).1) := by
        intro b hb he
        exact hnodup.1 (he ▸ List.mem_map_of_mem Prod.fst hb)
      rw [foldSet_untouched rs _ (nm, v).1 hnames]
      exact applyAttributeSet_self_frontyid t nm v hnm
    · rw [List.foldl_cons]
      exact ih _ nm v hnodup.2 hmem2 hnm

theorem applyAttributesPatch_lookup (a1 a2 : List (String × String))
    (hnodup : (a2.map Prod.fst).Nodup) (nm : String) (hnm : ¬ (nm = "frontyid")) :
    lookupAttr (TreeComparator.applyAttributesPatch (some ["frontyid"]) a1 a2) nm =
      lookupAttr a2 nm := by
  rw [TreeComparator.applyAttributesPatch]
  show lookupAttr (List.filter (fun attr => hasAttributeL a2 attr.1) _) nm = _
  rw [lookup_filter_name (fun x => hasAttributeL a2 x) nm]
  by_cases hhas : hasAttributeL a2 nm
  · rw [if_pos hhas]
    obtain ⟨v, hv⟩ := (hasAttributeL_lookup a2 nm).mp hhas
    rw [hv]
    exact foldSet_found a2 a1 nm v hnodup (lookupAttr_mem a2 nm v hv) hnm
  · rw [if_neg hhas]
    rcases hl : lookupAttr a2 nm with _ | v
    · rfl
    · exact absurd ((hasAttributeL_lookup a2 nm).mpr ⟨v, hl⟩) hhas

theorem equalAttributes_elem_iff (tg1 tg2 : String) (a1 a2 : List (String × String))
    (c1 c2 : List VNode) :
    TreeComparator.equalAttributes (VNode.elem tg1 a1 c1) (VNode.elem tg2 a2 c2) = true ↔
      a1.filter (fun p => ¬ (p.1 = "frontyid")) = a2.filter (fun p => ¬ (p.1 = "frontyid")) := by
  show (a1.filter (fun p => ¬ (p.1 = "frontyid")) == a2.filter (fun p => ¬ (p.1 = "frontyid")))
      = true ↔ _
  exact beq_iff_eq

theorem equalAttributes_lookup (tg1 tg2 : String) (a1 a2 : List (String × String))
    (c1 c2 : List VNode)
    (h : TreeComparator.equalAttributes (VNode.elem tg1 a1 c1) (VNode.elem tg2 a2 c2) = true)
    (nm : String) (hnm : ¬ (nm = "frontyid")) : lookupAttr a1 nm = lookupAttr a2 nm := by
  have hf := (equalAttributes_elem_iff tg1 tg2 a1 a2 c1 c2).mp h
  have h1 := lookup_filter_name (fun x => decide (¬ (x = "frontyid"))) nm a1
  have h2 := lookup_filter_name (fun x => decide (¬ (x = "frontyid"))) nm a2
  rw [if_pos (by simp [hnm])] at h1 h2
  rw [← h1, ← h2, hf]

theorem diff_elem_emits_attributes (n : Nat) (tg : String) (a1 a2 : List (String × String))
    (c1 c2 : List VNode) (ps : List Patch)
    (h : TreeComparator.diff (n + 1) (VNode.elem tg a1 c1) (VNode.elem tg a2 c2) none = some ps)
    (hne : TreeComparator.equalAttributes (VNode.elem tg a1 c1) (VNode.elem tg a2 c2) = false) :
    ps.getLast? = some (Patch.attributes (VNode.elem tg a1 c1) (VNode.elem tg a2 c2)) := by
  rw [TreeComparator.diff] at h
  rw [if_pos ⟨rfl, rfl⟩] at h
  obtain ⟨res, hres, hf⟩ := Option.bind_eq_some.mp h
  rw [if_neg (fun hcond => by
    rcases hcond.1 with h1 | h1 <;> exact NodeType.noConfusion h1)] at hf
  rw [if_pos (by simp [hne])] at hf
  injection hf with hf
  rw [← hf]
  exact List.getLast?_concat _

/-- C8: for element nodes with the same tag name, (1) applying the
`attributes` patch (as the component applies it, with `frontyid` in
`skipAttributes`) to the target's attribute map makes every
non-`frontyid` attribute lookup agree with the replacement — attributes
present on the replacement are set, attributes absent from it are
removed; (2) when `_equalAttributes` holds (no `attributes` patch is
emitted) the two maps already agree on every non-`frontyid` name; (3)
whenever `diff` completes on such a pair with unequal attributes, the
emitted patch list ends with exactly the `attributes` patch for the
pair.  The replacement map is assumed to have pairwise-distinct names, as
every DOM `NamedNodeMap` does. -/
theorem claim_C8_attribute_roundtrip (tg : String) (a1 a2 : List (String × String))
    (c1 c2 : List VNode) (hnodup : (a2.map Prod.fst).Nodup) :
    (∀ nm, ¬ (nm = "frontyid") →
      lookupAttr (TreeComparator.applyAttributesPatch (some ["frontyid"]) a1 a2) nm =
        lookupAttr a2 nm) ∧
    (TreeComparator.equalAttributes (VNode.elem tg a1 c1) (VNode.elem tg a2 c2) = true →
      ∀ nm, ¬ (nm = "frontyid") → lookupAttr a1 nm = lookupAttr a2 nm) ∧
    (∀ (n : Nat) (ps : List Patch),
      TreeComparator.diff (n + 1) (VNode.elem tg a1 c1) (VNode.elem tg a2 c2) none = some ps →
      TreeComparator.equalAttributes (VNode.elem tg a1 c1) (VNode.elem tg a2 c2) = false →
      ps.getLast? = some (Patch.attributes (VNode.elem tg a1 c1) (VNode.elem tg a2 c2))) :=
  ⟨fun nm hnm => applyAttributesPatch_lookup a1 a2 hnodup nm hnm,
   fun h nm hnm => equalAttributes_lookup tg tg a1 a2 c1 c2 h nm hnm,
   fun n ps h hne => diff_elem_emits_attributes n tg a1 a2 c1 c2 ps h hne⟩

/-- Witness for C8 at concrete attribute maps: the patched target agrees
with the replacement on `type` (updated) and `dead` (removed); an
attribute-equal pair (up to `frontyid`) agrees on `k`; and a concrete
completed diff of an unequal pair ends in its `attributes` patch. -/
theorem claim_C8_attribute_roundtrip_witness :
    lookupAttr
        (TreeComparator.applyAttributesPatch (some ["frontyid"])
          [("type", "text"), ("frontyid", "7"), ("dead", "x")]
          [("type", "password"), ("extra", "y")]) "type" =
      lookupAttr [("type", "password"), ("extra", "y")] "type" ∧
    lookupAttr [("frontyid", "1"), ("k", "v")] "k" = lookupAttr [("k", "v")] "k" ∧
    [Patch.attributes (VNode.elem "input" [("type", "text"), ("frontyid", "7"), ("dead", "x")] [])
        (VNode.elem "input" [("type", "password"), ("extra", "y")] [])].getLast? =
      some (Patch.attributes
        (VNode.elem "input" [("type", "text"), ("frontyid", "7"), ("dead", "x")] [])
        (VNode.elem "input" [("type", "password"), ("extra", "y")] [])) :=
  ⟨(claim_C8_attribute_roundtrip "input" [("type", "text"), ("frontyid", "7"), ("dead", "x")]
      [("type", "password"), ("extra", "y")] [] [] (by decide)).1 "type" (by decide),
   (claim_C8_attribute_roundtrip "input" [("frontyid", "1"), ("k", "v")] [("k", "v")] [] []
      (by decide)).2.1 (by decide) "k" (by decide),
   (claim_C8_attribute_roundtrip "input" [("type", "text"), ("frontyid", "7"), ("dead", "x")]
      [("type", "password"), ("extra", "y")] [] [] (by decide)).2.2 0
      [Patch.attributes
        (VNode.elem "input" [("type", "text"), ("frontyid", "7"), ("dead", "x")] [])
        (VNode.elem "input" [("type", "password"), ("extra", "y")] [])]
      rfl (by decide)⟩

/-! ### Idempotent re-render (claim C4) -/

theorem getD_of_drop_cons {α : Type _} (d : α) :
    ∀ (l : List α) (k : Nat) (x : α) (xs : List α), l.drop k = x :: xs → l.getD k d = x := by
  intro l
  induction l with
  | nil => intro k x xs h; simp at h
  | cons y ys ih =>
    intro k x xs h
    cases k with
    | zero => simp at h ⊢; exact h.1
    | succ k => exact ih k x xs h

theorem lt_length_of_drop_cons {α : Type _} (l : List α) (k : Nat) (x : α) (xs : List α)
    (h : l.drop k = x :: xs) : k < l.length := by
  have := congrArg List.length h
  rw [List.length_drop] at this
  simp at this
  omega

theorem drop_succ_of_drop_cons {α : Type _} (l : List α) (k : Nat) (x : α) (xs : List α)
    (h : l.drop k = x :: xs) : l.drop (k + 1) = xs := by
  have : l.drop (k + 1) = (l.drop k).drop 1 := by rw [List.drop_drop, Nat.add_comm]
  rw [this, h]
  rfl

theorem tagTreeList_length (cs : List VNode) :
    ∀ c : Nat, (Component.tagTreeList c cs).1.length = cs.length := by
  induction cs with
  | nil => intro c; rfl
  | cons x xs ih =>
    intro c
    show ((Component.tagTree c x).1 :: (Component.tagTreeList (Component.tagTree c x).2 xs).1).length
        = xs.length + 1
    rw [List.length_cons, ih]

theorem hasAttr_filter_other (a : List (String × String)) (nm : String)
    (hnm : ¬ (nm = "frontyid")) :
    hasAttributeL (a.filter (fun p => ¬ (p.1 = "frontyid"))) nm = hasAttributeL a nm := by
  induction a with
  | nil => rfl
  | cons x xs ih =>
    by_cases hx : x.1 = "frontyid"
    · have hxnm : ¬ (x.1 = nm) := fun h => hnm (h ▸ hx)
      rw [List.filter_cons_of_neg (by simp [hx]), ih, hasAttributeL_cons]
      simp [hxnm]
    · rw [List.filter_cons_of_pos (by simp [hx]), hasAttributeL_cons, hasAttributeL_cons, ih]

theorem filter_map_set_other (a : List (String × String)) (nm v : String)
    (hnm : ¬ (nm = "frontyid")) :
    (a.map (fun p => if p.1 = nm then (nm, v) else p)).filter (fun p => ¬ (p.1 = "frontyid")) =
      (a.filter (fun p => ¬ (p.1 = "frontyid"))).map
        (fun p => if p.1 = nm then (nm, v) else p) := by
  induction a with
  | nil => rfl
  | cons x xs ih =>
    by_cases hx : x.1 = nm
    · rw [List.map_cons, if_pos hx,
        List.filter_cons_of_pos (by simp [hnm]),
        List.filter_cons_of_pos (by simp; exact fun h => hnm (hx ▸ h)), List.map_cons, if_pos hx, ih]
    · rw [List.map_cons, if_neg hx]
      by_cases hfid : x.1 = "frontyid"
      · rw [List.filter_cons_of_neg (by simp [hfid]), List.filter_cons_of_neg (by simp [hfid]), ih]
      · rw [List.filter_cons_of_pos (by simp [hfid]), List.filter_cons_of_pos (by simp [hfid]),
          List.map_cons, if_neg hx, ih]

theorem filter_map_set_frontyid (a : List (String × String)) (v : String) :
    (a.map (fun p => if p.1 = "frontyid" then ("frontyid", v) else p)).filter
        (fun p => ¬ (p.1 = "frontyid")) =
      a.filter (fun p => ¬ (p.1 = "frontyid")) := by
  induction a with
  | nil => rfl
  | cons x xs ih =>
    by_cases hx : x.1 = "frontyid"
    · rw [List.map_cons, if_pos hx, List.filter_cons_of_neg (by simp),
        List.filter_cons_of_neg (by simp [hx]), ih]
    · rw [List.map_cons, if_neg hx, List.filter_cons_of_pos (by simp [hx]),
        List.filter_cons_of_pos (by simp [hx]), ih]

theorem filter_set_frontyid (a : List (String × String)) (v : String) :
    (setAttributeL a "frontyid" v).filter (fun p => ¬ (p.1 = "frontyid")) =
      a.filter (fun p => ¬ (p.1 = "frontyid")) := by
  rw [setAttributeL]
  split
  · exact filter_map_set_frontyid a v
  · rw [List.filter_append, List.filter_cons_of_neg (by simp), List.filter_nil,
      List.append_nil]

theorem filter_set_other (a : List (String × String)) (nm v : String)
    (hnm : ¬ (nm = "frontyid")) :
    (setAttributeL a nm v).filter (fun p => ¬ (p.1 = "frontyid")) =
      setAttributeL (a.filter (fun p => ¬ (p.1 = "frontyid"))) nm v := by
  rw [setAttributeL, setAttributeL, hasAttr_filter_other a nm hnm]
  split
  · exact filter_map_set_other a nm v hnm
  · rw [List.filter_append, List.filter_cons_of_pos (by simp [hnm]), List.filter_nil]

theorem equalAttributes_of_filter_eq (tg1 tg2 : String) (a1 a2 : List (String × String))
    (c1 c2 : List VNode)
    (h : a1.filter (fun p => ¬ (p.1 = "frontyid")) = a2.filter (fun p => ¬ (p.1 = "frontyid"))) :
    TreeComparator.equalAttributes (VNode.elem tg1 a1 c1) (VNode.elem tg2 a2 c2) = true :=
  (equalAttributes_elem_iff tg1 tg2 a1 a2 c1 c2).mpr h

theorem getAttribute_elem (tg : String) (a : List (String × String)) (cs : List VNode)
    (nm : String) : (VNode.elem tg a cs).getAttribute nm = lookupAttr a nm := rfl

theorem getAttribute_set_frontyid (tg : String) (a : List (String × String)) (cs cs2 : List VNode)
    (v nm : String) (hnm : ¬ (nm = "frontyid")) :
    (VNode.elem tg (setAttributeL a "frontyid" v) cs).getAttribute nm =
      (VNode.elem tg a cs2).getAttribute nm := by
  rw [getAttribute_elem, getAttribute_elem]
  exact lookup_set_other a "frontyid" v nm hnm

theorem renderComparePolicy_element (n1 n2 : VNode) (h : n1.nodeType = NodeType.element) :
    Component.renderComparePolicy false [] n1 n2 = CompareAction.diff := by
  rw [Component.renderComparePolicy]
  rw [if_neg (by simp)]
  rw [if_neg (by simp)]
  rw [if_neg (by simp)]
  rw [if_neg (by simp [h])]

theorem diff_elem_step (n : Nat) (pol : Option Policy) (tg : String)
    (a1 a2 : List (String × String)) (c1 c2 : List VNode)
    (hpol : (match pol with
             | some p => p (VNode.elem tg a1 c1) (VNode.elem tg a2 c2)
             | none => CompareAction.diff) = CompareAction.diff) :
    TreeComparator.diff (n + 1) (VNode.elem tg a1 c1) (VNode.elem tg a2 c2) pol =
      (if 0 < c1.length ∨ 0 < c2.length then
        (TreeComparator.compareChildren n pol
          (TreeComparator.buildChildrenKeyIndex c1) (TreeComparator.buildChildrenKeyIndex c2)
          ⟨VNode.elem tg a1 c1, VNode.elem tg a2 c2, c1, 0, 0, 0, 0⟩).map (fun r => r.1)
       else some []).bind
      (fun result =>
        if ¬ TreeComparator.equalAttributes (VNode.elem tg a1 c1) (VNode.elem tg a2 c2) then
          some (result ++ [Patch.attributes (VNode.elem tg a1 c1) (VNode.elem tg a2 c2)])
        else some result) := by
  cases pol with
  | none =>
    rw [TreeComparator.diff]
    rw [if_pos ⟨rfl, rfl⟩]
    rfl
  | some p =>
    have hp : p (VNode.elem tg a1 c1) (VNode.elem tg a2 c2) = CompareAction.diff := hpol
    rw [TreeComparator.diff, hp]
    dsimp only
    rw [if_pos ⟨rfl, rfl⟩]
    rfl

theorem compareChildren_exit (n : Nat) (pol : Option Policy)
    (i1 i2 : List (String × Nat)) (s : ScanState)
    (h1 : ¬ s.child1pos < s.node1.childNodes.length)
    (h2 : ¬ s.child2pos < s.node2.childNodes.length) :
    TreeComparator.compareChildren (n + 1) pol i1 i2 s = some ([], s) := by
  rw [TreeComparator.compareChildren]
  rw [if_neg (fun hc => h1 hc.1)]
  rw [if_neg h1, if_neg h2]

theorem compareChildren_step_pair (n : Nat) (pol : Option Policy)
    (i1 i2 : List (String × Nat)) (s : ScanState) (e1 e2 : VNode)
    (h1 : s.child1pos < s.node1.childNodes.length)
    (h2 : s.child2pos < s.node2.childNodes.length)
    (hc1 : s.child1Array.getD s.child1pos (VNode.text "") = e1)
    (hc2 : s.node2.childNodes.getD s.child2pos (VNode.text "") = e2)
    (he1 : e1.nodeType = NodeType.element) (he2 : e2.nodeType = NodeType.element)
    (hk : e1.getAttribute "key" = e2.getAttribute "key") :
    TreeComparator.compareChildren (n + 1) pol i1 i2 s =
      (TreeComparator.diff n e1 e2 pol).bind (fun sub =>
        (TreeComparator.compareChildren n pol i1 i2
          { s with child1pos := s.child1pos + 1, child2pos := s.child2pos + 1 }).map
          (fun r => (sub ++ r.1, r.2))) := by
  rw [TreeComparator.compareChildren]
  rw [if_pos ⟨h1, h2⟩]
  dsimp only
  rw [hc1, hc2]
  rw [if_pos ⟨he1, he2⟩]
  rw [if_neg (fun hne => hne hk)]

theorem one_le_vsize (v : VNode) : 1 ≤ vsize v := by
  cases v <;> simp [vsize]

theorem vsize_elem (tg : String) (a : List (String × String)) (cs : List VNode) :
    vsize (VNode.elem tg a cs) = 1 + vsizeList cs := rfl

theorem vsizeList_cons (v : VNode) (vs : List VNode) :
    vsizeList (v :: vs) = vsize v + vsizeList vs := rfl

theorem tagged_P_nil (tg : String) (a1 a2 : List (String × String)) (c : Nat)
    (hf : a1.filter (fun p => ¬ (p.1 = "frontyid")) =
          a2.filter (fun p => ¬ (p.1 = "frontyid"))) :
    ∃ N, ∀ n, N ≤ n →
      TreeComparator.diff n (VNode.elem tg a1 (Component.tagTreeList c []).1)
        (VNode.elem tg a2 []) rerenderPolicy = some [] := by
  refine ⟨1, fun n hn => ?_⟩
  cases n with
  | zero => omega
  | succ n =>
    have htl : (Component.tagTreeList c []).1 = ([] : List VNode) := rfl
    rw [htl]
    rw [diff_elem_step n rerenderPolicy tg a1 a2 [] []
      (renderComparePolicy_element _ _ rfl)]
    rw [if_neg (by simp)]
    simp only [Option.some_bind]
    rw [if_neg (not_not_intro (equalAttributes_of_filter_eq tg tg a1 a2 [] [] hf))]

theorem tagged_Q_nil (p1 p2 : VNode) (i1 i2 : List (String × Nat)) (k c : Nat)
    (hd1 : p1.childNodes.drop k = (Component.tagTreeList c []).1)
    (hd2 : p2.childNodes.drop k = ([] : List VNode)) :
    ∃ N, ∀ n, N ≤ n → ∃ s2,
      TreeComparator.compareChildren n rerenderPolicy i1 i2
        ⟨p1, p2, p1.childNodes, k, k, 0, 0⟩ = some ([], s2) := by
  have htl : (Component.tagTreeList c []).1 = ([] : List VNode) := rfl
  rw [htl] at hd1
  have h1 : p1.childNodes.length ≤ k := by
    have := congrArg List.length hd1
    rw [List.length_drop] at this
    simp at this
    omega
  have h2 : p2.childNodes.length ≤ k := by
    have := congrArg List.length hd2
    rw [List.length_drop] at this
    simp at this
    omega
  refine ⟨1, fun n hn => ?_⟩
  cases n with
  | zero => omega
  | succ n =>
    exact ⟨_, compareChildren_exit n rerenderPolicy i1 i2 _ (by simp; omega) (by simp; omega)⟩

/-- Main induction for the amended C4: diffing a tagged element against
its untagged original (under the re-render policy, attribute maps equal up
to `frontyid`) yields no patches, for element-only children. -/
theorem tagged_rerender_empty : ∀ M : Nat,
    (∀ (tg : String) (a1 a2 : List (String × String)) (cs : List VNode) (c : Nat),
      vsizeList cs ≤ M → VNode.elementOnlyList cs = true →
      a1.filter (fun p => ¬ (p.1 = "frontyid")) =
        a2.filter (fun p => ¬ (p.1 = "frontyid")) →
      ∃ N, ∀ n, N ≤ n →
        TreeComparator.diff n (VNode.elem tg a1 (Component.tagTreeList c cs).1)
          (VNode.elem tg a2 cs) rerenderPolicy = some []) ∧
    (∀ rest : List VNode, vsizeList rest ≤ M → VNode.elementOnlyList rest = true →
      ∀ (p1 p2 : VNode) (i1 i2 : List (String × Nat)) (k c : Nat),
        p1.childNodes.length = p2.childNodes.length →
        p1.childNodes.drop k = (Component.tagTreeList c rest).1 →
        p2.childNodes.drop k = rest →
        ∃ N, ∀ n, N ≤ n → ∃ s2,
          TreeComparator.compareChildren n rerenderPolicy i1 i2
            ⟨p1, p2, p1.childNodes, k, k, 0, 0⟩ = some ([], s2)) := by
  intro M
  induction M with
  | zero =>
    constructor
    · intro tg a1 a2 cs c hsz _ hf
      cases cs with
      | nil => exact tagged_P_nil tg a1 a2 c hf
      | cons c0 cs' =>
        exfalso
        have := one_le_vsize c0
        rw [vsizeList_cons] at hsz
        omega
    · intro rest hsz _ p1 p2 i1 i2 k c _ hd1 hd2
      cases rest with
      | nil => exact tagged_Q_nil p1 p2 i1 i2 k c hd1 hd2
      | cons r rs =>
        exfalso
        have := one_le_vsize r
        rw [vsizeList_cons] at hsz
        omega
  | succ M ih =>
    have hQ : ∀ rest : List VNode, vsizeList rest ≤ M + 1 →
        VNode.elementOnlyList rest = true →
        ∀ (p1 p2 : VNode) (i1 i2 : List (String × Nat)) (k c : Nat),
          p1.childNodes.length = p2.childNodes.length →
          p1.childNodes.drop k = (Component.tagTreeList c rest).1 →
          p2.childNodes.drop k = rest →
          ∃ N, ∀ n, N ≤ n → ∃ s2,
            TreeComparator.compareChildren n rerenderPolicy i1 i2
              ⟨p1, p2, p1.childNodes, k, k, 0, 0⟩ = some ([], s2) := by
      intro rest hsz heo p1 p2 i1 i2 k c hlen hd1 hd2
      cases rest with
      | nil => exact tagged_Q_nil p1 p2 i1 i2 k c hd1 hd2
      | cons r rs =>
        rw [VNode.elementOnlyList, Bool.and_eq_true] at heo
        cases r with
        | text v => exact absurd heo.1 (by simp [VNode.elementOnly])
        | comment v => exact absurd heo.1 (by simp [VNode.elementOnly])
        | elem tr ar crs =>
          -- the tagged head and tail
          have htag : (Component.tagTreeList c (VNode.elem tr ar crs :: rs)).1 =
              VNode.elem tr (setAttributeL ar "frontyid" (toString c))
                  (Component.tagTreeList (c + 1) crs).1 ::
                (Component.tagTreeList (Component.tagTree c (VNode.elem tr ar crs)).2 rs).1 := rfl
          rw [htag] at hd1
          -- size bookkeeping
          rw [vsizeList_cons, vsize_elem] at hsz
          have hszcrs : vsizeList crs ≤ M := by omega
          have hszrs : vsizeList rs ≤ M := by
            have := one_le_vsize (VNode.elem tr ar crs)
            rw [vsize_elem] at this
            omega
          -- the inner diff of the pair, from part 1 of the induction hypothesis
          obtain ⟨N1, hN1⟩ := ih.1 tr (setAttributeL ar "frontyid" (toString c)) ar crs (c + 1)
            hszcrs (by simpa [VNode.elementOnly] using heo.1)
            (filter_set_frontyid ar (toString c))
          -- the remaining scan, from part 2 of the induction hypothesis
          obtain ⟨N2, hN2⟩ := ih.2 rs hszrs heo.2 p1 p2 i1 i2 (k + 1)
            (Component.tagTree c (VNode.elem tr ar crs)).2 hlen
            (drop_succ_of_drop_cons _ _ _ _ hd1)
            (drop_succ_of_drop_cons _ _ _ _ hd2)
          refine ⟨N1 + N2 + 1, fun n hn => ?_⟩
          cases n with
          | zero => omega
          | succ n =>
            have hc1 : (⟨p1, p2, p1.childNodes, k, k, 0, 0⟩ : ScanState).child1Array.getD
                (⟨p1, p2, p1.childNodes, k, k, 0, 0⟩ : ScanState).child1pos (VNode.text "") =
                VNode.elem tr (setAttributeL ar "frontyid" (toString c))
                  (Component.tagTreeList (c + 1) crs).1 :=
              getD_of_drop_cons _ _ _ _ _ hd1
            have hc2 : (⟨p1, p2, p1.childNodes, k, k, 0, 0⟩ : ScanState).node2.childNodes.getD
                (⟨p1, p2, p1.childNodes, k, k, 0, 0⟩ : ScanState).child2pos (VNode.text "") =
                VNode.elem tr ar crs :=
              getD_of_drop_cons _ _ _ _ _ hd2
            rw [compareChildren_step_pair n rerenderPolicy i1 i2 _ _ _
              (lt_length_of_drop_cons _ _ _ _ hd1)
              (lt_length_of_drop_cons _ _ _ _ hd2)
              hc1 hc2 rfl rfl
              (getAttribute_set_frontyid tr ar _ crs (toString c) "key" (by decide))]
            rw [hN1 n (by omega)]
            have hstate : ({ (⟨p1, p2, p1.childNodes, k, k, 0, 0⟩ : ScanState) with
                child1pos := k + 1, child2pos := k + 1 } : ScanState) =
                ⟨p1, p2, p1.childNodes, k + 1, k + 1, 0, 0⟩ := rfl
            rw [hstate]
            obtain ⟨s2, hs2⟩ := hN2 n (by omega)
            rw [hs2]
            exact ⟨s2, rfl⟩
    refine ⟨?_, hQ⟩
    intro tg a1 a2 cs c hsz heo hf
    cases cs with
    | nil => exact tagged_P_nil tg a1 a2 c hf
    | cons c0 cs' =>
      obtain ⟨N2, hN2⟩ := hQ (c0 :: cs') hsz heo
        (VNode.elem tg a1 (Component.tagTreeList c (c0 :: cs')).1)
        (VNode.elem tg a2 (c0 :: cs'))
        (TreeComparator.buildChildrenKeyIndex (Component.tagTreeList c (c0 :: cs')).1)
        (TreeComparator.buildChildrenKeyIndex (c0 :: cs'))
        0 c
        (by show (Component.tagTreeList c (c0 :: cs')).1.length = (c0 :: cs').length
            exact tagTreeList_length (c0 :: cs') c)
        (by show (Component.tagTreeList c (c0 :: cs')).1.drop 0 = _
            rw [List.drop_zero])
        (by show (c0 :: cs').drop 0 = (c0 :: cs')
            rw [List.drop_zero])
      refine ⟨N2 + 1, fun n hn => ?_⟩
      cases n with
      | zero => omega
      | succ n =>
        rw [diff_elem_step n rerenderPolicy tg a1 a2 _ _
          (renderComparePolicy_element _ _ rfl)]
        rw [if_pos (Or.inr (by simp))]
        obtain ⟨s2, hs2⟩ := hN2 n (by omega)
        have hchild : (VNode.elem tg a1 (Component.tagTreeList c (c0 :: cs')).1).childNodes =
            (Component.tagTreeList c (c0 :: cs')).1 := rfl
        rw [hchild] at hs2
        rw [hs2]
        simp only [Option.map_some', Option.some_bind]
        rw [if_neg (not_not_intro
          (equalAttributes_of_filter_eq tg tg a1 a2 _ _ hf))]

/-- C4: false of the code — a byte-identical re-render does not yield an
empty patch list when the output contains a text node.  First render of
`<div>Hi</div>` tags the stored virtual tree (`frontyid` attributes,
`__FTN__:<id>#` text markers); the re-render output is untagged, so `diff`
sees the marked text `__FTN__:1#Hi` against `Hi` and emits a `node-value`
patch. -/
theorem claim_C4_counterexample :
    TreeComparator.diff 4 c4Prev c4New rerenderPolicy =
      some [Patch.nodeValue (VNode.text "__FTN__:1#Hi") (VNode.text "Hi")] ∧
    [Patch.nodeValue (VNode.text "__FTN__:1#Hi") (VNode.text "Hi")] ≠ ([] : List Patch) :=
  ⟨rfl, by simp⟩

/-- C4 (amended): re-rendering a started component whose render function
produces byte-identical structural output yields an empty patch list —
and hence zero host-tree mutations — whenever the output contains no text
or comment nodes.  (With text or comment nodes present the tagger's value
markers make the diff emit one `node-value` patch per such node; see the
counterexample.) -/
theorem claim_C4_amended (t : VNode) (htmlId : String)
    (heo : VNode.elementOnly t = true) :
    ∃ N, ∀ n, N ≤ n →
      TreeComparator.diff n (Component.setRootId (Component.tagTree 0 t).1 htmlId)
        (Component.setRootId t htmlId) rerenderPolicy = some [] := by
  cases t with
  | text v => exact absurd heo (by simp [VNode.elementOnly])
  | comment v => exact absurd heo (by simp [VNode.elementOnly])
  | elem tg a cs =>
    have h1 : Component.setRootId (Component.tagTree 0 (VNode.elem tg a cs)).1 htmlId =
        VNode.elem tg
          (setAttributeL (setAttributeL a "frontyid" (toString 0)) "id" htmlId)
          (Component.tagTreeList 1 cs).1 := rfl
    have h2 : Component.setRootId (VNode.elem tg a cs) htmlId =
        VNode.elem tg (setAttributeL a "id" htmlId) cs := rfl
    rw [h1, h2]
    refine (tagged_rerender_empty (vsizeList cs)).1 tg _ _ cs 1 (Nat.le_refl _)
      (by simpa [VNode.elementOnly] using heo) ?_
    rw [filter_set_other _ "id" htmlId (by decide),
        filter_set_other _ "id" htmlId (by decide),
        filter_set_frontyid]

/-- Witness for C4 (amended) at a concrete element-only tree. -/
theorem claim_C4_amended_witness :
    VNode.elementOnly
        (VNode.elem "div" [("class", "c")] [VNode.elem "span" [("key", "1")] []]) = true ∧
    ∃ N, ∀ n, N ≤ n →
      TreeComparator.diff n
        (Component.setRootId
          (Component.tagTree 0
            (VNode.elem "div" [("class", "c")] [VNode.elem "span" [("key", "1")] []])).1 "app")
        (Component.setRootId
          (VNode.elem "div" [("class", "c")] [VNode.elem "span" [("key", "1")] []]) "app")
        rerenderPolicy = some [] :=
  ⟨by decide,
   claim_C4_amended
     (VNode.elem "div" [("class", "c")] [VNode.elem "span" [("key", "1")] []]) "app"
     (by decide)⟩
